import Mathlib

/-!
Shallow embedding of the trade lifecycle / escrow engine of the
crypto-backend repository, together with proofs about it.

Monetary quantities are embedded as rationals (`ℚ`).  The source stores
money as decimal strings and computes with JS numbers; every persisted
write goes through `toFixed(8)` (respectively `toFixed(2)`), which we
embed as explicit rounding functions.  `Math.round x` in JS is
`⌊x + 1/2⌋` (ties toward +∞), which is what `jsRound` below computes.
-/

namespace Crypto

/-! ## Rounding and pricing (src/src/service/price.ts) -/

/-- JS `Math.round`: round to the nearest integer, ties toward +∞. -/
def jsRound (q : ℚ) : ℤ := (q + 1/2).floor

/-- Rounding `Math.round (x * 100) / 100` — 2 decimal places. -/
def round2 (q : ℚ) : ℚ := (jsRound (q * 100) : ℚ) / 100

/-- Rounding `Math.round (x * 1e8) / 1e8` — 8 decimal places. -/
def round8 (q : ℚ) : ℚ := (jsRound (q * 100000000) : ℚ) / 100000000

/-- A rational representable with 8 decimal digits (satoshi precision);
all persisted monetary fields of the source have this form, since every
balance / amount write goes through `toFixed(8)`. -/
def Sat8 (q : ℚ) : Prop := ∃ n : ℤ, q = (n : ℚ) / 100000000

/-- Output record of `PriceService.calculatePricing`. -/
structure Pricing where
  price : ℚ
  fiat_amount_with_margin : ℚ
  btc_amount_with_margin : ℚ
  deriving DecidableEq, Repr

/-- Embeds `PriceService.calculatePricing` (src/src/service/price.ts):
apply the offer margin to the market price and derive the fiat and
crypto amounts, rounding price/fiat to 2 decimals and crypto to 8. -/
def calculatePricing (marginPct currentBtcPrice fiatAmount : ℚ) : Pricing :=
  let margin := marginPct
  let price :=
    if margin < 0 then ((100 - |margin|) / 100) * currentBtcPrice
    else ((100 + margin) / 100) * currentBtcPrice
  let fiatAmountWithMargin :=
    if margin < 0 then ((100 + |margin|) / 100) * fiatAmount
    else ((100 - |margin|) / 100) * fiatAmount
  let btcAmountWithMargin := fiatAmountWithMargin / currentBtcPrice
  { price := round2 price
    fiat_amount_with_margin := round2 fiatAmountWithMargin
    btc_amount_with_margin := round8 btcAmountWithMargin }

/-- Embeds `PriceService.convertFiatToBtc`: unmargined conversion, 8 decimals. -/
def convertFiatToBtc (fiatAmount currentBtcPrice : ℚ) : ℚ :=
  round8 (fiatAmount / currentBtcPrice)

/-- The effective unit price before output rounding (the `price` local
of `calculatePricing`). -/
def effectivePriceRaw (margin p : ℚ) : ℚ :=
  if margin < 0 then ((100 - |margin|) / 100) * p else ((100 + margin) / 100) * p

/-- The margined fiat amount before output rounding (the
`fiatAmountWithMargin` local of `calculatePricing`). -/
def fiatWithMarginRaw (margin f : ℚ) : ℚ :=
  if margin < 0 then ((100 + |margin|) / 100) * f else ((100 - |margin|) / 100) * f

/-! ## Data model (src/src/schema, trade fields used by the engine) -/

/-- The `status` column of a trade (`TradeStatus` in src/src/util/string). -/
inductive TradeStatus
  | OPENED | PAID | SUCCESSFUL
  | CANCELLED_BUYER | CANCELLED_SELLER | CANCELLED_SYSTEM
  | DISPUTED | AWARDED_BUYER | AWARDED_SELLER
  deriving DecidableEq, Repr

/-- A trade side (`'buyer' | 'seller'` string literals in the source). -/
inductive Party
  | buyer | seller
  deriving DecidableEq, Repr

/-- A persisted trade row.  Monetary columns are decimal strings in the
source, written through `toFixed(2)` / `toFixed(8)` and read back with
`parseFloat`; they are embedded as the rational they denote.
Timestamps are embedded as epoch seconds (`ℤ`). -/
structure Trade where
  id : Nat
  request_id : String
  buyer : Nat
  seller : Nat
  offer_id : Nat
  fiat_amount_original : ℚ
  fiat_amount_with_margin : ℚ
  btc_amount_original : ℚ
  btc_amount_with_margin : ℚ
  price : ℚ
  status : TradeStatus
  cancelled : String
  dispute_started : Bool
  dispute_time : Option ℤ
  dispute_reason : Option String
  dispute_explanation : Option String
  dispute_started_by : Option Party
  dispute_mod_notes : Option String
  dispute_time_resolve : Option ℤ
  escrow_return : Bool
  expiry_time : ℤ
  deriving DecidableEq, Repr

/-- Offer type (`'buy' | 'sell'`). -/
inductive OfferType
  | buy | sell
  deriving DecidableEq, Repr

/-- Offer status (`'active' | 'inactive' | 'paused'`). -/
inductive OfferStatus
  | active | inactive | paused
  deriving DecidableEq, Repr

/-- Country-restriction mode (`'none' | 'blocked' | 'allowed'`). -/
inductive CountryMode
  | none | blocked | allowed
  deriving DecidableEq, Repr

/-- The offer fields read by `TradeController.createTrade`.
`minimum`/`maximum`/`margin` are decimal strings in the source, read
through `parseFloat`; a bound of `0` is treated as "no bound" by the
controller's truthiness check. -/
structure Offer where
  id : Nat
  user_id : Nat
  type : OfferType
  currency : String
  margin : ℚ
  minimum : ℚ
  maximum : ℚ
  active : Bool
  status : OfferStatus
  deauth : Bool
  id_verification : Bool
  full_name_required : Bool
  new_trader_limit : Bool
  minimum_trades : Option Nat
  vpn_blocked : Bool
  limit_countries : CountryMode
  blocked_countries : List String
  allowed_countries : List String
  deriving DecidableEq, Repr

/-- The user fields read by the trade controller. -/
structure User where
  id : Nat
  health : Option String
  is_verified : Bool
  name : Option String
  deriving DecidableEq, Repr

/-- Persistent state touched by the engine: the trades table and the
per-user balance column (a decimal string in the source, embedded as
the rational it denotes). -/
structure State where
  trades : List Trade
  balance : Nat → ℚ

/-- Embeds `TradeRepository.findById` (restricted to the row itself). -/
def findById (st : State) (id : Nat) : Option Trade :=
  st.trades.find? (fun t => t.id == id)

/-- Embeds `TradeRepository.findByRequestId`. -/
def findByRequestId (st : State) (rid : String) : Option Trade :=
  st.trades.find? (fun t => t.request_id == rid)

/-- A drizzle `update ... where id = ?`: rewrite the matching rows. -/
def updateTrade (l : List Trade) (id : Nat) (f : Trade → Trade) : List Trade :=
  l.map (fun t => if t.id = id then f t else t)

/-- Store a new value for one user's balance column
(`UserService.setBalance`). -/
def setBal (b : Nat → ℚ) (uid : Nat) (v : ℚ) : Nat → ℚ :=
  fun n => if n = uid then v else b n

/-- Embeds `TradeRepository.getCount(userId)`: the number of trades in which
the user participates as buyer or seller — any status. -/
def getCount (st : State) (uid : Nat) : Nat :=
  (st.trades.filter (fun t => t.buyer == uid || t.seller == uid)).length

/-- Modelled from the spec (§4.2 rule 8 reads "requester's
completed-trade count"): the number of the user's *completed* trades,
i.e. trades that reached `SUCCESSFUL`.  The source has no such query —
`TradeRepository.getCount` counts every trade of the user regardless of
status; this definition exists to state what the claim asserts. -/
def specCompletedTradeCount (st : State) (uid : Nat) : Nat :=
  (st.trades.filter (fun t =>
    (t.buyer == uid || t.seller == uid) && t.status == TradeStatus.SUCCESSFUL)).length

/-- Caller-facing error outcomes of the trade controller (each is a
distinct `serveBadRequest` / `serveNotFound` / thrown message in the
source). -/
inductive Err
  | offerNotFound | duplicateRequest | offerInactive | selfTrade
  | accountNotActive | offerDeauthorized | verificationRequired
  | fullNameRequired | amountBelowMinimum | amountAboveMaximum
  | insufficientTradeHistory | vpnBlocked | countryRestricted
  | priceUnavailable | insufficientBalance
  | tradeNotFound | notAllowed | invalidState
  | disputeAlreadyStarted | noDispute | infraFailure
  deriving DecidableEq, Repr

/-- Outcome of one controller call: the response (`none` = success)
and the persistent state after the call. -/
abbrev OpResult := Option Err × State

/-! ## Lifecycle operations (TradeController / TradeRepository) -/

/-- Embeds `TradeController.markPaid`: the authenticated caller is `uid`. -/
def markPaid (st : State) (uid tid : Nat) : OpResult :=
  match findById st tid with
  | none => (some .tradeNotFound, st)
  | some t =>
    if t.buyer ≠ uid then (some .notAllowed, st)
    else if t.status ≠ .OPENED then (some .invalidState, st)
    else (none, { st with trades := updateTrade st.trades tid (fun u => { u with status := .PAID }) })

/-- Embeds `TradeController.cancelTrade`: refund the escrow to the seller and
mark the trade cancelled by the initiating side. -/
def cancelTrade (st : State) (uid tid : Nat) (reason : Option String) : OpResult :=
  match findById st tid with
  | none => (some .tradeNotFound, st)
  | some t =>
    if t.buyer ≠ uid ∧ t.seller ≠ uid then (some .notAllowed, st)
    else if t.status ≠ .OPENED then (some .invalidState, st)
    else
      (none,
        { trades := updateTrade st.trades tid (fun u =>
            { u with
              status := if t.buyer = uid then .CANCELLED_BUYER else .CANCELLED_SELLER
              cancelled := reason.getD "User cancelled" })
          balance := setBal st.balance t.seller
            (round8 (st.balance t.seller + t.btc_amount_original)) })

/-- Embeds `TradeController.openDispute`. -/
def openDispute (st : State) (uid tid : Nat) (reason explanation : String) (now : ℤ) : OpResult :=
  match findById st tid with
  | none => (some .tradeNotFound, st)
  | some t =>
    if t.buyer ≠ uid ∧ t.seller ≠ uid then (some .notAllowed, st)
    else if t.dispute_started then (some .disputeAlreadyStarted, st)
    else if t.status ≠ .OPENED ∧ t.status ≠ .PAID then (some .invalidState, st)
    else
      (none,
        { st with trades := updateTrade st.trades tid (fun u =>
            { u with
              dispute_started := true
              dispute_time := some now
              dispute_reason := some reason
              dispute_explanation := some explanation
              dispute_started_by := some (if t.buyer = uid then Party.buyer else Party.seller)
              status := .DISPUTED }) })

/-- Embeds `TradeController.resolveDispute` (the role check is a TODO in the
source; any authenticated user reaches this code path). -/
def resolveDispute (st : State) (tid : Nat) (awardedTo : Party) (modNotes : Option String)
    (now : ℤ) : OpResult :=
  match findById st tid with
  | none => (some .tradeNotFound, st)
  | some t =>
    if ¬t.dispute_started then (some .noDispute, st)
    else
      (none,
        { st with trades := updateTrade st.trades tid (fun u =>
            { u with
              status := if awardedTo = Party.buyer then .AWARDED_BUYER else .AWARDED_SELLER
              dispute_time_resolve := some now
              dispute_mod_notes := modNotes
              dispute_started := false }) })

/-- Embeds `TradeController.releaseCrypto`: credit the buyer with
`btc_amount_with_margin` and return `max(escrow − credit, 0)` to the
seller, then mark the trade SUCCESSFUL. -/
def releaseCrypto (st : State) (uid tid : Nat) : OpResult :=
  match findById st tid with
  | none => (some .tradeNotFound, st)
  | some t =>
    if t.seller ≠ uid then (some .notAllowed, st)
    else if t.status ≠ .PAID then (some .invalidState, st)
    else
      (none,
        { trades := updateTrade st.trades tid (fun u =>
            { u with status := .SUCCESSFUL, escrow_return := false })
          balance :=
            if 0 < max (t.btc_amount_original - t.btc_amount_with_margin) 0 then
              setBal
                (setBal st.balance t.buyer
                  (round8 (st.balance t.buyer + t.btc_amount_with_margin)))
                t.seller
                (round8 (st.balance t.seller
                  + max (t.btc_amount_original - t.btc_amount_with_margin) 0))
            else
              setBal st.balance t.buyer
                (round8 (st.balance t.buyer + t.btc_amount_with_margin)) })

/-- Embeds `TradeController.reopenTrade`: re-lock the escrow from the seller
and return a cancelled trade to OPENED with a fresh 24-hour expiry. -/
def reopenTrade (st : State) (uid tid : Nat) (now : ℤ) : OpResult :=
  match findById st tid with
  | none => (some .tradeNotFound, st)
  | some t =>
    if t.buyer ≠ uid ∧ t.seller ≠ uid then (some .notAllowed, st)
    else if t.status ≠ .CANCELLED_BUYER ∧ t.status ≠ .CANCELLED_SELLER then
      (some .invalidState, st)
    else if st.balance t.seller < t.btc_amount_original then (some .insufficientBalance, st)
    else
      (none,
        { trades := updateTrade st.trades tid (fun u =>
            { u with status := .OPENED, cancelled := "NA", expiry_time := now + 24 * 60 * 60 })
          balance := setBal st.balance t.seller
            (round8 (st.balance t.seller - t.btc_amount_original)) })

/-- Embeds `TradeRepository.expireTrade`: an unconditional
`update trades set status = CANCELLED_SYSTEM, cancelled = 'Trade expired'
where id = ?` — the source performs no status check. -/
def expireTrade (st : State) (tid : Nat) : State :=
  { st with trades := updateTrade st.trades tid (fun u =>
      { u with status := .CANCELLED_SYSTEM, cancelled := "Trade expired" }) }

/-- JS truthiness of the `user.health` guard:
`user.health && user.health !== 'active'`. -/
def healthBlocked : Option String → Bool
  | none => false
  | some h => !(h == "" || h == "active")

/-- JS truthiness of the full-name guard:
`!user.name || user.name.trim().length < 2`. -/
def nameMissing : Option String → Bool
  | none => true
  | some s => s.trim.length < 2

/-- Inputs of `TradeController.createTrade` after the HTTP plumbing:
the authenticated user, the offer-lookup result, the request body, the
price-oracle result (`none` = fetch failed), the geo/VPN header stubs,
the current time, and the DB-assigned id of the row to insert. -/
structure CreateInput where
  user : User
  offer : Option Offer
  request_id : String
  fiat_amount : ℚ
  btcPrice : Option ℚ
  isVpn : Bool
  countryIso : String
  now : ℤ
  newId : Nat

/-- Party derivation: on a `sell` offer the offer owner sells, the
requester buys; on a `buy` offer the requester sells. -/
def sellerOf (offer : Offer) (user : User) : Nat :=
  if offer.type = .sell then offer.user_id else user.id

/-- Counterpart of `sellerOf`. -/
def buyerOf (offer : Offer) (user : User) : Nat :=
  if offer.type = .sell then user.id else offer.user_id

/-- The `NewTrade` record inserted by `TradeController.createTrade`
once every check has passed (`p` is the fetched BTC price). -/
def newTradeRow (inp : CreateInput) (offer : Offer) (p : ℚ) : Trade :=
  { id := inp.newId
    request_id := inp.request_id
    buyer := buyerOf offer inp.user
    seller := sellerOf offer inp.user
    offer_id := offer.id
    fiat_amount_original := inp.fiat_amount
    fiat_amount_with_margin := (calculatePricing offer.margin p inp.fiat_amount).fiat_amount_with_margin
    btc_amount_original := convertFiatToBtc inp.fiat_amount p
    btc_amount_with_margin := (calculatePricing offer.margin p inp.fiat_amount).btc_amount_with_margin
    price := (calculatePricing offer.margin p inp.fiat_amount).price
    status := .OPENED
    cancelled := "NA"
    dispute_started := false
    dispute_time := none
    dispute_reason := none
    dispute_explanation := none
    dispute_started_by := none
    dispute_mod_notes := none
    dispute_time_resolve := none
    escrow_return := false
    expiry_time := inp.now + 30 * 60 }

/-- Embeds `TradeController.createTrade`: eligibility checks in source order,
then pricing, then the escrow lock from the seller, then the insert of
the new OPENED trade with a 30-minute expiry. -/
def createTrade (st : State) (inp : CreateInput) : OpResult :=
  match inp.offer with
  | none => (some .offerNotFound, st)
  | some offer =>
    if (findByRequestId st inp.request_id).isSome then (some .duplicateRequest, st)
    else if offer.status ≠ .active ∨ ¬offer.active then (some .offerInactive, st)
    else if offer.user_id = inp.user.id then (some .selfTrade, st)
    else if healthBlocked inp.user.health then (some .accountNotActive, st)
    else if offer.deauth then (some .offerDeauthorized, st)
    else if offer.id_verification ∧ ¬inp.user.is_verified then (some .verificationRequired, st)
    else if offer.full_name_required ∧ nameMissing inp.user.name then (some .fullNameRequired, st)
    else if offer.minimum ≠ 0 ∧ inp.fiat_amount < offer.minimum then (some .amountBelowMinimum, st)
    else if offer.maximum ≠ 0 ∧ offer.maximum < inp.fiat_amount then (some .amountAboveMaximum, st)
    else if offer.new_trader_limit ∧ getCount st inp.user.id < offer.minimum_trades.getD 0 then
      (some .insufficientTradeHistory, st)
    else if offer.vpn_blocked ∧ inp.isVpn then (some .vpnBlocked, st)
    else if inp.countryIso ≠ "" ∧ offer.limit_countries = .blocked ∧
        inp.countryIso ∈ offer.blocked_countries then (some .countryRestricted, st)
    else if inp.countryIso ≠ "" ∧ offer.limit_countries = .allowed ∧
        inp.countryIso ∉ offer.allowed_countries then (some .countryRestricted, st)
    else
      match inp.btcPrice with
      | none => (some .priceUnavailable, st)
      | some currentBtcPrice =>
        if currentBtcPrice = 0 then (some .priceUnavailable, st)
        else if st.balance (sellerOf offer inp.user)
            < convertFiatToBtc inp.fiat_amount currentBtcPrice then
          (some .insufficientBalance, st)
        else
          (none,
            { trades := st.trades ++ [newTradeRow inp offer currentBtcPrice]
              balance := setBal st.balance (sellerOf offer inp.user)
                (round8 (st.balance (sellerOf offer inp.user)
                  - convertFiatToBtc inp.fiat_amount currentBtcPrice)) })

/-- Embeds `TradeController.releaseCrypto` with the persistence of the final
status write made fallible.  The source awaits each write separately
with no transactional scope: when the status update throws after the
balance credits, the handler's `catch` returns an error response, but
the already-performed balance writes remain applied. -/
def releaseCryptoFallible (st : State) (uid tid : Nat) (statusWriteOk : Bool) : OpResult :=
  match findById st tid with
  | none => (some .tradeNotFound, st)
  | some t =>
    if t.seller ≠ uid then (some .notAllowed, st)
    else if t.status ≠ .PAID then (some .invalidState, st)
    else
      (if statusWriteOk then (none : Option Err) else some .infraFailure,
        { trades :=
            if statusWriteOk then
              updateTrade st.trades tid (fun u =>
                { u with status := .SUCCESSFUL, escrow_return := false })
            else st.trades
          balance :=
            if 0 < max (t.btc_amount_original - t.btc_amount_with_margin) 0 then
              setBal
                (setBal st.balance t.buyer
                  (round8 (st.balance t.buyer + t.btc_amount_with_margin)))
                t.seller
                (round8 (st.balance t.seller
                  + max (t.btc_amount_original - t.btc_amount_with_margin) 0))
            else
              setBal st.balance t.buyer
                (round8 (st.balance t.buyer + t.btc_amount_with_margin)) })

/-! ## Concrete fixtures for counterexamples and witnesses -/

/-- A trade row with typical field values, specialised below. -/
def baseTrade : Trade :=
  { id := 1
    request_id := "r1"
    buyer := 1
    seller := 2
    offer_id := 1
    fiat_amount_original := 100
    fiat_amount_with_margin := 95
    btc_amount_original := 2 / 100
    btc_amount_with_margin := 19 / 1000
    price := 105
    status := .OPENED
    cancelled := "NA"
    dispute_started := false
    dispute_time := none
    dispute_reason := none
    dispute_explanation := none
    dispute_started_by := none
    dispute_mod_notes := none
    dispute_time_resolve := none
    escrow_return := false
    expiry_time := 0 }

/-- The all-zero balance column. -/
def zeroBal : Nat → ℚ := fun _ => 0

/-- An offer every eligibility rule of which passes for `baseUser`. -/
def baseOffer : Offer :=
  { id := 1
    user_id := 2
    type := .sell
    currency := "USD"
    margin := 0
    minimum := 0
    maximum := 0
    active := true
    status := .active
    deauth := false
    id_verification := false
    full_name_required := false
    new_trader_limit := false
    minimum_trades := some 0
    vpn_blocked := false
    limit_countries := .none
    blocked_countries := []
    allowed_countries := [] }

/-- A healthy verified user. -/
def baseUser : User :=
  { id := 1, health := some "active", is_verified := true, name := some "Alice Doe" }

/-- A create request for `baseOffer` by `baseUser`. -/
def baseInput : CreateInput :=
  { user := baseUser
    offer := some baseOffer
    request_id := "r1"
    fiat_amount := 100
    btcPrice := some 50000
    isVpn := false
    countryIso := ""
    now := 0
    newId := 1 }

/-- The constant-1 balance column. -/
def oneBal : Nat → ℚ := fun _ => 1

/-- A PAID trade whose buyer credit (2) exceeds its escrow (1) — the
shape produced by a negative offer margin. -/
def inflatedTrade : Trade :=
  { baseTrade with status := .PAID, btc_amount_original := 1, btc_amount_with_margin := 2 }

/-- A state holding only `inflatedTrade`, all balances zero. -/
def inflatedState : State := { trades := [inflatedTrade], balance := zeroBal }

/-- Fixture: `baseTrade` after `markPaid`. -/
def paidTrade : Trade := { baseTrade with status := .PAID }

/-- A state holding only `paidTrade`, all balances zero. -/
def paidState : State := { trades := [paidTrade], balance := zeroBal }

/-- A completed trade. -/
def successfulTrade : Trade := { baseTrade with status := .SUCCESSFUL }

/-- A state holding only `successfulTrade`, all balances zero. -/
def successfulState : State := { trades := [successfulTrade], balance := zeroBal }

/-- A disputed trade. -/
def disputedTrade : Trade := { baseTrade with status := .DISPUTED, dispute_started := true }

/-- A state holding only `disputedTrade`, all balances zero. -/
def disputedState : State := { trades := [disputedTrade], balance := zeroBal }

/-- A state holding only the OPENED `baseTrade`, all balances zero. -/
def openState : State := { trades := [baseTrade], balance := zeroBal }

/-- A buyer-cancelled trade. -/
def cancelledTrade : Trade := { baseTrade with status := .CANCELLED_BUYER }

/-- A state holding only `cancelledTrade`, all balances one. -/
def cancelledState : State := { trades := [cancelledTrade], balance := oneBal }

/-- Fixture: `baseOffer` restricted to traders with at least one prior trade. -/
def historyOffer : Offer :=
  { baseOffer with new_trader_limit := true, minimum_trades := some 1 }

/-- A create request for `historyOffer` by `baseUser`. -/
def historyInput : CreateInput :=
  { baseInput with offer := some historyOffer, request_id := "r2" }

/-- A state in which user 1 participates in exactly one trade, still
OPENED (hence not completed), and every balance is one. -/
def historyState : State :=
  { trades := [{ baseTrade with id := 5, seller := 3, request_id := "r0" }], balance := oneBal }

/-- The empty trade table with all balances zero. -/
def emptyState : State := { trades := [], balance := zeroBal }

/-- The empty trade table with all balances one. -/
def fundedState : State := { trades := [], balance := oneBal }

/-- Fixture: `baseInput` with an idempotency key no fixture trade uses. -/
def freshInput : CreateInput := { baseInput with request_id := "rX" }

/-! ## Helper lemmas -/

theorem jsRound_eq_floor (q : ℚ) : jsRound q = ⌊q + 1/2⌋ :=
  (Rat.floor_def' _).trans Rat.floor_def.symm

theorem Sat8.add {a b : ℚ} (ha : Sat8 a) (hb : Sat8 b) : Sat8 (a + b) := by
  obtain ⟨m, rfl⟩ := ha; obtain ⟨n, rfl⟩ := hb
  exact ⟨m + n, by push_cast; ring⟩

theorem Sat8.sub {a b : ℚ} (ha : Sat8 a) (hb : Sat8 b) : Sat8 (a - b) := by
  obtain ⟨m, rfl⟩ := ha; obtain ⟨n, rfl⟩ := hb
  exact ⟨m - n, by push_cast; ring⟩

theorem Sat8.max {a b : ℚ} (ha : Sat8 a) (hb : Sat8 b) : Sat8 (max a b) := by
  rcases le_total a b with h | h
  · rwa [max_eq_right h]
  · rwa [max_eq_left h]

theorem Sat8.zero : Sat8 0 := ⟨0, by norm_num⟩

/-- On 8-decimal values, `toFixed(8)`-style rounding is the identity. -/
theorem round8_eq_self {q : ℚ} (h : Sat8 q) : round8 q = q := by
  obtain ⟨n, rfl⟩ := h
  have h1 : (n : ℚ) / 100000000 * 100000000 = (n : ℚ) := by
    field_simp
  rw [round8, jsRound_eq_floor, h1]
  have h2 : ⌊(n : ℚ) + 1/2⌋ = n := by
    rw [Int.floor_eq_iff]
    refine ⟨by linarith, by linarith⟩
  rw [h2]

theorem calculatePricing_price (m p f : ℚ) :
    (calculatePricing m p f).price = round2 (effectivePriceRaw m p) := rfl

theorem calculatePricing_fiat (m p f : ℚ) :
    (calculatePricing m p f).fiat_amount_with_margin = round2 (fiatWithMarginRaw m f) := rfl

theorem calculatePricing_btc (m p f : ℚ) :
    (calculatePricing m p f).btc_amount_with_margin =
      round8 (fiatWithMarginRaw m f / p) := rfl

/-- The two branches of the effective-price rule collapse: for `m < 0`,
`|m| = -m`, so `(100 - |m|)/100 = (100 + m)/100`. -/
theorem effectivePriceRaw_eq (m p : ℚ) : effectivePriceRaw m p = ((100 + m) / 100) * p := by
  unfold effectivePriceRaw
  split
  · next h => rw [abs_of_neg h]; ring
  · rfl

theorem fiatWithMarginRaw_eq (m f : ℚ) : fiatWithMarginRaw m f = ((100 - m) / 100) * f := by
  unfold fiatWithMarginRaw
  split
  · next h => rw [abs_of_neg h]; ring
  · next h => rw [abs_of_nonneg (le_of_not_lt h)]

theorem jsRound_mono {a b : ℚ} (h : a ≤ b) : jsRound a ≤ jsRound b := by
  rw [jsRound_eq_floor, jsRound_eq_floor]
  exact Int.floor_le_floor (by linarith)

theorem round2_mono {a b : ℚ} (h : a ≤ b) : round2 a ≤ round2 b := by
  unfold round2
  have := jsRound_mono (by linarith : a * 100 ≤ b * 100)
  have : (jsRound (a * 100) : ℚ) ≤ (jsRound (b * 100) : ℚ) := by exact_mod_cast this
  linarith

theorem find?_updateTrade (l : List Trade) (id : Nat) (f : Trade → Trade)
    (hf : ∀ t, (f t).id = t.id) :
    List.find? (fun t => t.id == id) (updateTrade l id f)
      = Option.map f (List.find? (fun t => t.id == id) l) := by
  induction l with
  | nil => rfl
  | cons a l ih =>
    simp only [updateTrade, List.map_cons, List.find?_cons] at *
    by_cases h : a.id = id
    · simp [h, hf]
    · have hb : (a.id == id) = false := by simpa using h
      simp [h, hb, ih]

theorem findById_update (st : State) (tid : Nat) (f : Trade → Trade) (b : Nat → ℚ)
    (hf : ∀ t, (f t).id = t.id) :
    findById { trades := updateTrade st.trades tid f, balance := b } tid
      = Option.map f (findById st tid) :=
  find?_updateTrade st.trades tid f hf

theorem setBal_same (b : Nat → ℚ) (uid : Nat) (v : ℚ) : setBal b uid v uid = v := by
  simp [setBal]

theorem setBal_other (b : Nat → ℚ) (uid : Nat) (v : ℚ) {n : Nat} (h : n ≠ uid) :
    setBal b uid v n = b n := by
  simp [setBal, h]

/-- Destructuring a successful `createTrade` run: the offer and price
lookups succeeded, the idempotency key was fresh, and the final state
appends exactly one row and debits the seller by the escrow amount. -/
theorem createTrade_ok_shape (st : State) (inp : CreateInput) (st' : State)
    (h : createTrade st inp = (none, st')) :
    ∃ offer p, inp.offer = some offer ∧ inp.btcPrice = some p ∧
      findByRequestId st inp.request_id = none ∧
      st' = { trades := st.trades ++ [newTradeRow inp offer p]
              balance := setBal st.balance (sellerOf offer inp.user)
                (round8 (st.balance (sellerOf offer inp.user)
                  - convertFiatToBtc inp.fiat_amount p)) } := by
  unfold createTrade at h
  cases hof : inp.offer with
  | none =>
    rw [hof] at h
    dsimp only at h
    exact Option.noConfusion (congrArg Prod.fst h)
  | some offer =>
    rw [hof] at h
    dsimp only at h
    by_cases hdup : (findByRequestId st inp.request_id).isSome
    · rw [if_pos hdup] at h
      exact Option.noConfusion (congrArg Prod.fst h)
    · rw [if_neg hdup] at h
      refine ⟨offer, ?_⟩
      by_cases h2 : offer.status ≠ OfferStatus.active ∨ ¬offer.active = true
      · rw [if_pos h2] at h; exact Option.noConfusion (congrArg Prod.fst h)
      rw [if_neg h2] at h
      by_cases h3 : offer.user_id = inp.user.id
      · rw [if_pos h3] at h; exact Option.noConfusion (congrArg Prod.fst h)
      rw [if_neg h3] at h
      by_cases h4 : healthBlocked inp.user.health = true
      · rw [if_pos h4] at h; exact Option.noConfusion (congrArg Prod.fst h)
      rw [if_neg h4] at h
      by_cases h5 : offer.deauth = true
      · rw [if_pos h5] at h; exact Option.noConfusion (congrArg Prod.fst h)
      rw [if_neg h5] at h
      by_cases h6 : offer.id_verification = true ∧ ¬inp.user.is_verified = true
      · rw [if_pos h6] at h; exact Option.noConfusion (congrArg Prod.fst h)
      rw [if_neg h6] at h
      by_cases h7 : offer.full_name_required = true ∧ nameMissing inp.user.name = true
      · rw [if_pos h7] at h; exact Option.noConfusion (congrArg Prod.fst h)
      rw [if_neg h7] at h
      by_cases h8 : offer.minimum ≠ 0 ∧ inp.fiat_amount < offer.minimum
      · rw [if_pos h8] at h; exact Option.noConfusion (congrArg Prod.fst h)
      rw [if_neg h8] at h
      by_cases h9 : offer.maximum ≠ 0 ∧ offer.maximum < inp.fiat_amount
      · rw [if_pos h9] at h; exact Option.noConfusion (congrArg Prod.fst h)
      rw [if_neg h9] at h
      by_cases h10 : offer.new_trader_limit = true ∧
        getCount st inp.user.id < offer.minimum_trades.getD 0
      · rw [if_pos h10] at h; exact Option.noConfusion (congrArg Prod.fst h)
      rw [if_neg h10] at h
      by_cases h11 : offer.vpn_blocked = true ∧ inp.isVpn = true
      · rw [if_pos h11] at h; exact Option.noConfusion (congrArg Prod.fst h)
      rw [if_neg h11] at h
      by_cases h12 : inp.countryIso ≠ "" ∧ offer.limit_countries = CountryMode.blocked ∧
        inp.countryIso ∈ offer.blocked_countries
      · rw [if_pos h12] at h; exact Option.noConfusion (congrArg Prod.fst h)
      rw [if_neg h12] at h
      by_cases h13 : inp.countryIso ≠ "" ∧ offer.limit_countries = CountryMode.allowed ∧
        inp.countryIso ∉ offer.allowed_countries
      · rw [if_pos h13] at h; exact Option.noConfusion (congrArg Prod.fst h)
      rw [if_neg h13] at h
      cases hp : inp.btcPrice with
      | none =>
        rw [hp] at h
        exact Option.noConfusion (congrArg Prod.fst h)
      | some p =>
        rw [hp] at h
        dsimp only at h
        by_cases h14 : p = 0
        · rw [if_pos h14] at h; exact Option.noConfusion (congrArg Prod.fst h)
        rw [if_neg h14] at h
        by_cases h15 : st.balance (sellerOf offer inp.user)
            < convertFiatToBtc inp.fiat_amount p
        · rw [if_pos h15] at h; exact Option.noConfusion (congrArg Prod.fst h)
        rw [if_neg h15] at h
        exact ⟨p, rfl, rfl, Option.not_isSome_iff_eq_none.mp hdup,
          (congrArg Prod.snd h).symm⟩

/-- A create call whose idempotency key is already present fails and
returns the state untouched. -/
theorem createTrade_dup_fails (st : State) (inp : CreateInput)
    (hdup : (findByRequestId st inp.request_id).isSome = true) :
    (createTrade st inp).1.isSome = true ∧ (createTrade st inp).2 = st := by
  unfold createTrade
  cases hof : inp.offer with
  | none => exact ⟨rfl, rfl⟩
  | some offer =>
    dsimp only
    rw [if_pos hdup]
    exact ⟨rfl, rfl⟩

/-! ## Claims -/

/-- C5: `calculatePricing` follows the margin rule — for `margin < 0`
the effective price is `marketPrice * (1 - |margin|/100)` and the
margined fiat is `fiatAmount * (1 + |margin|/100)`; otherwise
`marketPrice * (1 + margin/100)` and `fiatAmount * (1 - margin/100)`;
the crypto credit is the margined fiat divided by the unmodified market
price; outputs are rounded half-up (JS `Math.round` semantics) to 2
decimals for price/fiat and 8 for crypto.  In particular
`margin=5, marketPrice=50000, fiatAmount=1000` yields
`effectivePrice=52500.00`, `fiatAmountWithMargin=950.00`,
`btcAmountWithMargin=0.01900000`. -/
theorem calculatePricing_margin_rule (m p f : ℚ) :
    ((calculatePricing m p f).price =
      if m < 0 then round2 ((1 - |m| / 100) * p) else round2 ((1 + m / 100) * p)) ∧
    ((calculatePricing m p f).fiat_amount_with_margin =
      if m < 0 then round2 ((1 + |m| / 100) * f) else round2 ((1 - m / 100) * f)) ∧
    ((calculatePricing m p f).btc_amount_with_margin =
      round8 ((if m < 0 then (1 + |m| / 100) * f else (1 - m / 100) * f) / p)) ∧
    calculatePricing 5 50000 1000 =
      { price := 52500, fiat_amount_with_margin := 950, btc_amount_with_margin := 19 / 1000 } := by
  refine ⟨?_, ?_, ?_, ?_⟩
  · rw [calculatePricing_price]
    unfold effectivePriceRaw
    split
    · next h => rw [abs_of_neg h]; congr 1; ring
    · next h => congr 1; ring
  · rw [calculatePricing_fiat]
    unfold fiatWithMarginRaw
    split
    · next h => rw [abs_of_neg h]; congr 1; ring
    · next h => rw [abs_of_nonneg (le_of_not_lt h)]; congr 1; ring
  · rw [calculatePricing_btc]
    unfold fiatWithMarginRaw
    split
    · next h => rw [abs_of_neg h]; congr 2; ring
    · next h => rw [abs_of_nonneg (le_of_not_lt h)]; congr 2; ring
  · norm_num [calculatePricing, Pricing.mk.injEq, round2, round8, jsRound_eq_floor]

/-- C6 is false as stated: after the 2-decimal output rounding the
price and margined fiat are not *strictly* monotonic in the margin —
margins `0` and `1/1000` with market price `1` and fiat amount `100`
round to identical outputs. -/
theorem calculatePricing_strict_mono_counterexample :
    ¬ ∀ (p f m₁ m₂ : ℚ), 0 < p → m₁ < m₂ →
        (calculatePricing m₁ p f).price < (calculatePricing m₂ p f).price ∧
        (calculatePricing m₂ p f).fiat_amount_with_margin <
          (calculatePricing m₁ p f).fiat_amount_with_margin := by
  intro h
  obtain ⟨h1, _⟩ := h 1 100 0 (1/1000) (by norm_num) (by norm_num)
  have e1 : (calculatePricing 0 1 100).price = 1 := by
    norm_num [calculatePricing, round2, jsRound_eq_floor]
  have e2 : (calculatePricing (1/1000) 1 100).price = 1 := by
    norm_num [calculatePricing, round2, jsRound_eq_floor]
  rw [e1, e2] at h1
  exact lt_irrefl _ h1

/-- C6 (amended): before the output rounding, `calculatePricing` is
strictly monotonic in the margin — the effective price strictly
increases (for market price `p > 0`) and the margined fiat strictly
decreases (for fiat amount `f > 0`); the 2-decimal rounded outputs are
monotonic only weakly (non-strictly), since rounding can collapse
nearby margins. -/
theorem calculatePricing_monotone_margin (p f m₁ m₂ : ℚ) (hp : 0 < p) (hm : m₁ < m₂) :
    effectivePriceRaw m₁ p < effectivePriceRaw m₂ p ∧
    (0 < f → fiatWithMarginRaw m₂ f < fiatWithMarginRaw m₁ f) ∧
    (calculatePricing m₁ p f).price ≤ (calculatePricing m₂ p f).price ∧
    (0 ≤ f → (calculatePricing m₂ p f).fiat_amount_with_margin ≤
      (calculatePricing m₁ p f).fiat_amount_with_margin) := by
  have hpr : effectivePriceRaw m₁ p < effectivePriceRaw m₂ p := by
    rw [effectivePriceRaw_eq, effectivePriceRaw_eq]
    have : (100 + m₁) / 100 < (100 + m₂) / 100 := by linarith
    exact mul_lt_mul_of_pos_right this hp
  refine ⟨hpr, ?_, ?_, ?_⟩
  · intro hf
    rw [fiatWithMarginRaw_eq, fiatWithMarginRaw_eq]
    have : (100 - m₂) / 100 < (100 - m₁) / 100 := by linarith
    exact mul_lt_mul_of_pos_right this hf
  · rw [calculatePricing_price, calculatePricing_price]
    exact round2_mono (le_of_lt hpr)
  · intro hf
    rw [calculatePricing_fiat, calculatePricing_fiat]
    refine round2_mono ?_
    rw [fiatWithMarginRaw_eq, fiatWithMarginRaw_eq]
    have : (100 - m₂) / 100 ≤ (100 - m₁) / 100 := by linarith
    exact mul_le_mul_of_nonneg_right this hf

/-- Witness for the amended C6 theorem at
`p = 1, f = 1, m₁ = 0, m₂ = 100`. -/
theorem calculatePricing_monotone_margin_witness :
    effectivePriceRaw 0 1 < effectivePriceRaw 100 1 ∧
    ((0:ℚ) < 1 → fiatWithMarginRaw 100 1 < fiatWithMarginRaw 0 1) ∧
    (calculatePricing 0 1 1).price ≤ (calculatePricing 100 1 1).price ∧
    ((0:ℚ) ≤ 1 → (calculatePricing 100 1 1).fiat_amount_with_margin ≤
      (calculatePricing 0 1 1).fiat_amount_with_margin) :=
  calculatePricing_monotone_margin 1 1 0 100 (by norm_num) (by norm_num)

/-- C4: if a trade with the given `request_id` already exists, a create
call with that key fails and leaves the state (trades and balances)
exactly as it was; consequently a second create right after a
successful one with the same key fails and changes nothing, so exactly
one trade is persisted. -/
theorem createTrade_idempotency_key (st : State) (inp inp₂ : CreateInput) (st' : State)
    (hrid : inp₂.request_id = inp.request_id) :
    (∀ t, findByRequestId st inp.request_id = some t →
      (createTrade st inp).1.isSome = true ∧ (createTrade st inp).2 = st) ∧
    (createTrade st inp = (none, st') →
      (createTrade st' inp₂).1.isSome = true ∧ (createTrade st' inp₂).2 = st') := by
  constructor
  · intro t ht
    exact createTrade_dup_fails st inp (by rw [ht]; rfl)
  · intro hok
    obtain ⟨offer, p, hof, hp, hnone, hst'⟩ := createTrade_ok_shape st inp st' hok
    apply createTrade_dup_fails st' inp₂
    rw [hrid, hst']
    unfold findByRequestId at hnone ⊢
    rw [List.find?_append, hnone]
    simp [newTradeRow, List.find?]

/-- Witness for C4 at `openState` (which already holds a trade with
key "r1") and `baseInput` (which re-uses key "r1"). -/
theorem createTrade_idempotency_key_witness :
    (∀ t, findByRequestId openState baseInput.request_id = some t →
      (createTrade openState baseInput).1.isSome = true ∧
      (createTrade openState baseInput).2 = openState) ∧
    (createTrade openState baseInput = (none, openState) →
      (createTrade openState baseInput).1.isSome = true ∧
      (createTrade openState baseInput).2 = openState) :=
  createTrade_idempotency_key openState baseInput baseInput openState rfl

/-- C10: the expiry window differs between creation and reopening — a
successful `createTrade` inserts its row with
`expiry_time = now + 30 minutes`, while a successful `reopenTrade`
stores `expiry_time = now + 24 hours` on the reopened trade. -/
theorem expiry_create_30min_reopen_24h (st : State) (inp : CreateInput) (st' st₂ : State)
    (uid tid : Nat) (now : ℤ) (t : Trade)
    (hc : createTrade st inp = (none, st'))
    (hfind : findById st tid = some t)
    (hr : reopenTrade st uid tid now = (none, st₂)) :
    (∃ tr, st'.trades = st.trades ++ [tr] ∧ tr.expiry_time = inp.now + 30 * 60) ∧
    (findById st₂ tid).map Trade.expiry_time = some (now + 24 * 60 * 60) := by
  constructor
  · obtain ⟨offer, p, hof, hp, hnone, hst'⟩ := createTrade_ok_shape st inp st' hc
    exact ⟨newTradeRow inp offer p, by rw [hst'], rfl⟩
  · unfold reopenTrade at hr
    rw [hfind] at hr
    dsimp only at hr
    by_cases h1 : t.buyer ≠ uid ∧ t.seller ≠ uid
    · rw [if_pos h1] at hr; exact Option.noConfusion (congrArg Prod.fst hr)
    rw [if_neg h1] at hr
    by_cases h2 : t.status ≠ .CANCELLED_BUYER ∧ t.status ≠ .CANCELLED_SELLER
    · rw [if_pos h2] at hr; exact Option.noConfusion (congrArg Prod.fst hr)
    rw [if_neg h2] at hr
    by_cases h3 : st.balance t.seller < t.btc_amount_original
    · rw [if_pos h3] at hr; exact Option.noConfusion (congrArg Prod.fst hr)
    rw [if_neg h3] at hr
    injection hr with hfst hsnd
    subst hsnd
    rw [findById_update st tid
      (fun u => { u with
        status := TradeStatus.OPENED, cancelled := "NA", expiry_time := now + 24 * 60 * 60 })
      (setBal st.balance t.seller (round8 (st.balance t.seller - t.btc_amount_original)))
      (fun u => rfl), hfind]
    rfl

/-- Witness for C10 at `cancelledState`: a create with a fresh key and
a reopen of the cancelled trade, both succeeding. -/
theorem expiry_create_30min_reopen_24h_witness :
    (∃ tr, (createTrade cancelledState freshInput).2.trades = cancelledState.trades ++ [tr] ∧
      tr.expiry_time = freshInput.now + 30 * 60) ∧
    (findById (reopenTrade cancelledState 1 1 0).2 1).map Trade.expiry_time
      = some ((0 : ℤ) + 24 * 60 * 60) :=
  expiry_create_30min_reopen_24h cancelledState freshInput
    (createTrade cancelledState freshInput).2 (reopenTrade cancelledState 1 1 0).2
    1 1 0 cancelledTrade
    (Prod.ext_iff.mpr ⟨by
      norm_num [createTrade, freshInput, baseInput, baseUser, baseOffer, cancelledState,
        cancelledTrade, baseTrade, findByRequestId, List.find?, getCount, healthBlocked,
        oneBal, sellerOf, convertFiatToBtc, round8, jsRound_eq_floor]
      simp, rfl⟩)
    (by simp [findById, cancelledState, cancelledTrade, baseTrade, List.find?])
    (Prod.ext_iff.mpr ⟨by
      norm_num [reopenTrade, findById, cancelledState, cancelledTrade, baseTrade,
        List.find?, oneBal], rfl⟩)

/-- C1 is false as stated: when `btc_amount_with_margin` exceeds
`btc_amount_original` (negative offer margin), `releaseCrypto` credits
the buyer with the full margin amount while the seller return is
clamped at zero, so buyer credit + seller return exceeds the escrow —
at escrow 1 and credit 2 the balances grow by 2, not 1. -/
theorem releaseCrypto_conservation_counterexample :
    ¬ ∀ (st : State) (uid tid : Nat) (t : Trade) (st' : State),
        findById st tid = some t →
        releaseCrypto st uid tid = (none, st') →
        t.btc_amount_with_margin + max (t.btc_amount_original - t.btc_amount_with_margin) 0
            = t.btc_amount_original ∧
        st'.balance t.buyer + st'.balance t.seller
            = st.balance t.buyer + st.balance t.seller + t.btc_amount_original := by
  intro h
  have hfind : findById inflatedState 1 = some inflatedTrade := by
    simp [findById, inflatedState, inflatedTrade, baseTrade, List.find?]
  have h1 : (releaseCrypto inflatedState 2 1).1 = none := by
    norm_num [releaseCrypto, hfind, inflatedTrade, baseTrade]
  obtain ⟨hc, -⟩ := h inflatedState 2 1 inflatedTrade (releaseCrypto inflatedState 2 1).2
    hfind (Prod.ext_iff.mpr ⟨h1, rfl⟩)
  norm_num [inflatedTrade, baseTrade, max_def] at hc

/-- C1 (amended): a completed `releaseCrypto` credits the buyer with
exactly `btc_amount_with_margin` and the seller with exactly
`max(btc_amount_original − btc_amount_with_margin, 0)`; the two balance
increases therefore sum to `max(escrow, buyerCredit)` — which equals
the escrow `btc_amount_original` exactly when the buyer credit does not
exceed the escrow, and exceeds it otherwise. -/
theorem releaseCrypto_escrow_split (st : State) (uid tid : Nat) (t : Trade) (st' : State)
    (hfind : findById st tid = some t)
    (hok : releaseCrypto st uid tid = (none, st'))
    (hne : t.buyer ≠ t.seller)
    (hb : Sat8 (st.balance t.buyer)) (hs : Sat8 (st.balance t.seller))
    (ho : Sat8 t.btc_amount_original) (hm : Sat8 t.btc_amount_with_margin) :
    st'.balance t.buyer = st.balance t.buyer + t.btc_amount_with_margin ∧
    st'.balance t.seller
      = st.balance t.seller + max (t.btc_amount_original - t.btc_amount_with_margin) 0 ∧
    (st'.balance t.buyer + st'.balance t.seller) - (st.balance t.buyer + st.balance t.seller)
      = max t.btc_amount_original t.btc_amount_with_margin ∧
    (t.btc_amount_with_margin ≤ t.btc_amount_original →
      (st'.balance t.buyer + st'.balance t.seller) - (st.balance t.buyer + st.balance t.seller)
        = t.btc_amount_original) := by
  unfold releaseCrypto at hok
  rw [hfind] at hok
  dsimp only at hok
  by_cases h1 : t.seller ≠ uid
  · rw [if_pos h1] at hok; exact Option.noConfusion (congrArg Prod.fst hok)
  rw [if_neg h1] at hok
  by_cases h2 : t.status ≠ TradeStatus.PAID
  · rw [if_pos h2] at hok; exact Option.noConfusion (congrArg Prod.fst hok)
  rw [if_neg h2] at hok
  injection hok with hfst hsnd
  have hbal := congrArg State.balance hsnd
  have hb8 := round8_eq_self (hb.add hm)
  have hs8 := round8_eq_self (hs.add ((ho.sub hm).max Sat8.zero))
  have hne' : t.seller ≠ t.buyer := hne.symm
  by_cases hpos : 0 < max (t.btc_amount_original - t.btc_amount_with_margin) 0
  · have hbu : st'.balance t.buyer = st.balance t.buyer + t.btc_amount_with_margin := by
      rw [← hbal]
      dsimp only
      rw [if_pos hpos, setBal_other _ _ _ hne, setBal_same, hb8]
    have hse : st'.balance t.seller = st.balance t.seller
        + max (t.btc_amount_original - t.btc_amount_with_margin) 0 := by
      rw [← hbal]
      dsimp only
      rw [if_pos hpos, setBal_same, hs8]
    have hsum : st.balance t.buyer + t.btc_amount_with_margin
        + (st.balance t.seller + max (t.btc_amount_original - t.btc_amount_with_margin) 0)
        - (st.balance t.buyer + st.balance t.seller)
        = t.btc_amount_with_margin
          + max (t.btc_amount_original - t.btc_amount_with_margin) 0 := by ring
    have hmx : t.btc_amount_with_margin
        + max (t.btc_amount_original - t.btc_amount_with_margin) 0
        = max t.btc_amount_original t.btc_amount_with_margin := by
      rcases le_total t.btc_amount_with_margin t.btc_amount_original with h | h
      · rw [max_eq_left (by linarith :
            (0:ℚ) ≤ t.btc_amount_original - t.btc_amount_with_margin), max_eq_left h]
        ring
      · rw [max_eq_right (by linarith :
            t.btc_amount_original - t.btc_amount_with_margin ≤ (0:ℚ)), max_eq_right h]
        ring
    refine ⟨hbu, hse, ?_, ?_⟩
    · rw [hbu, hse, hsum, hmx]
    · intro hle
      rw [hbu, hse, hsum, hmx, max_eq_left hle]
  · have hmx0 : max (t.btc_amount_original - t.btc_amount_with_margin) 0 = 0 :=
      le_antisymm (not_lt.mp hpos) (le_max_right _ _)
    have hle' : t.btc_amount_original ≤ t.btc_amount_with_margin := by
      have := le_max_left (t.btc_amount_original - t.btc_amount_with_margin) 0
      rw [hmx0] at this
      linarith
    have hbu : st'.balance t.buyer = st.balance t.buyer + t.btc_amount_with_margin := by
      rw [← hbal]
      dsimp only
      rw [if_neg hpos, setBal_same, hb8]
    have hse : st'.balance t.seller = st.balance t.seller
        + max (t.btc_amount_original - t.btc_amount_with_margin) 0 := by
      rw [← hbal]
      dsimp only
      rw [if_neg hpos, setBal_other _ _ _ hne', hmx0, add_zero]
    refine ⟨hbu, hse, ?_, ?_⟩
    · rw [hbu, hse, hmx0, max_eq_right hle']
      ring
    · intro hle
      have : t.btc_amount_original = t.btc_amount_with_margin := le_antisymm hle' hle
      rw [hbu, hse, hmx0, this]
      ring

/-- Witness for the amended C1 theorem: the §8 escrow-split scenario —
escrow `0.02`, buyer credit `0.019`, so the seller gets back `0.001`
and the balance increases sum to the escrow exactly. -/
theorem releaseCrypto_escrow_split_witness :
    (releaseCrypto paidState 2 1).2.balance paidTrade.buyer
      = paidState.balance paidTrade.buyer + paidTrade.btc_amount_with_margin ∧
    (releaseCrypto paidState 2 1).2.balance paidTrade.seller
      = paidState.balance paidTrade.seller
        + max (paidTrade.btc_amount_original - paidTrade.btc_amount_with_margin) 0 ∧
    ((releaseCrypto paidState 2 1).2.balance paidTrade.buyer
        + (releaseCrypto paidState 2 1).2.balance paidTrade.seller)
      - (paidState.balance paidTrade.buyer + paidState.balance paidTrade.seller)
      = max paidTrade.btc_amount_original paidTrade.btc_amount_with_margin ∧
    (paidTrade.btc_amount_with_margin ≤ paidTrade.btc_amount_original →
      ((releaseCrypto paidState 2 1).2.balance paidTrade.buyer
          + (releaseCrypto paidState 2 1).2.balance paidTrade.seller)
        - (paidState.balance paidTrade.buyer + paidState.balance paidTrade.seller)
        = paidTrade.btc_amount_original) :=
  releaseCrypto_escrow_split paidState 2 1 paidTrade (releaseCrypto paidState 2 1).2
    (by simp [findById, paidState, paidTrade, baseTrade, List.find?])
    (Prod.ext_iff.mpr ⟨by
      norm_num [releaseCrypto, findById, paidState, paidTrade, baseTrade, List.find?], rfl⟩)
    (by simp [paidTrade, baseTrade])
    ⟨0, by norm_num [paidState, zeroBal, paidTrade, baseTrade]⟩
    ⟨0, by norm_num [paidState, zeroBal, paidTrade, baseTrade]⟩
    ⟨2000000, by norm_num [paidTrade, baseTrade]⟩
    ⟨1900000, by norm_num [paidTrade, baseTrade]⟩

/-- C2 is false as stated for the expire trigger:
`TradeRepository.expireTrade` performs no status check — applied to a
SUCCESSFUL (non-OPENED) trade it does not fail, and it overwrites the
status with CANCELLED_SYSTEM instead of leaving it unchanged. -/
theorem expireTrade_no_status_guard :
    successfulTrade.status = TradeStatus.SUCCESSFUL ∧
    findById (expireTrade successfulState 1) 1
      = some { successfulTrade with
          status := .CANCELLED_SYSTEM, cancelled := "Trade expired" } := by
  constructor
  · rfl
  · simp [expireTrade, findById, updateTrade, successfulState, successfulTrade, baseTrade,
      List.find?]

/-- C2 (amended): for the guarded triggers — markPaid, cancel,
openDispute, releaseCrypto, reopen — attempting the transition from a
current status not listed for that trigger in the §4.4 table fails with
the invalid-state error and returns the state (trade statuses and all
balances) exactly unchanged: markPaid and cancel from any status other
than OPENED, openDispute from any status other than OPENED or PAID
(with no dispute already open, per the table's guard), releaseCrypto
from any status other than PAID, reopen from any status other than
CANCELLED_BUYER or CANCELLED_SELLER.  Each trigger's condition is its
own: the conjuncts apply separately, e.g. to markPaid on a PAID trade
or releaseCrypto on an OPENED trade.  resolveDispute is guarded by the
`dispute_started` flag (failing with a no-dispute error when it is
false) rather than by status; expire performs no status check at all
(see the counterexample). -/
theorem invalid_transitions_rejected (st : State) (tid : Nat) (t : Trade)
    (uidA uidB uidC uidD uidE : Nat)
    (r notes : Option String) (reason explanation : String) (now : ℤ) (awd : Party)
    (hfind : findById st tid = some t)
    (hbuyA : t.buyer = uidA)
    (hparB : t.buyer = uidB ∨ t.seller = uidB)
    (hparC : t.buyer = uidC ∨ t.seller = uidC)
    (hselD : t.seller = uidD)
    (hparE : t.buyer = uidE ∨ t.seller = uidE)
    (hds : t.dispute_started = false) :
    (t.status ≠ .OPENED →
      markPaid st uidA tid = (some .invalidState, st)) ∧
    (t.status ≠ .OPENED →
      cancelTrade st uidB tid r = (some .invalidState, st)) ∧
    (t.status ≠ .OPENED → t.status ≠ .PAID →
      openDispute st uidC tid reason explanation now = (some .invalidState, st)) ∧
    (t.status ≠ .PAID →
      releaseCrypto st uidD tid = (some .invalidState, st)) ∧
    (t.status ≠ .CANCELLED_BUYER → t.status ≠ .CANCELLED_SELLER →
      reopenTrade st uidE tid now = (some .invalidState, st)) ∧
    resolveDispute st tid awd notes now = (some .noDispute, st) := by
  refine ⟨?_, ?_, ?_, ?_, ?_, ?_⟩
  · intro hnO
    unfold markPaid
    rw [hfind]
    dsimp only
    rw [if_neg (by simp [hbuyA]), if_pos hnO]
  · intro hnO
    unfold cancelTrade
    rw [hfind]
    dsimp only
    rw [if_neg (by tauto), if_pos hnO]
  · intro hnO hnP
    unfold openDispute
    rw [hfind]
    dsimp only
    rw [if_neg (by tauto), if_neg (by simp [hds]), if_pos ⟨hnO, hnP⟩]
  · intro hnP
    unfold releaseCrypto
    rw [hfind]
    dsimp only
    rw [if_neg (by simp [hselD]), if_pos hnP]
  · intro hnCB hnCS
    unfold reopenTrade
    rw [hfind]
    dsimp only
    rw [if_neg (by tauto), if_pos ⟨hnCB, hnCS⟩]
  · unfold resolveDispute
    rw [hfind]
    dsimp only
    rw [if_pos (by simp [hds])]

/-- Witness for the amended C2 theorem at `successfulState`: every
trigger applied to a SUCCESSFUL trade is rejected and the state is
returned untouched (SUCCESSFUL lies outside every trigger's allowed
set, so every per-trigger condition is discharged concretely). -/
theorem invalid_transitions_rejected_witness :
    markPaid successfulState 1 1 = (some .invalidState, successfulState) ∧
    cancelTrade successfulState 1 1 none = (some .invalidState, successfulState) ∧
    openDispute successfulState 1 1 "scam" "no goods" 0 = (some .invalidState, successfulState) ∧
    releaseCrypto successfulState 2 1 = (some .invalidState, successfulState) ∧
    reopenTrade successfulState 1 1 0 = (some .invalidState, successfulState) ∧
    resolveDispute successfulState 1 Party.buyer none 0 = (some .noDispute, successfulState) :=
  have T := invalid_transitions_rejected successfulState 1 successfulTrade 1 1 1 2 1
    none none "scam" "no goods" 0 Party.buyer
    (by simp [findById, successfulState, successfulTrade, baseTrade, List.find?])
    (by simp [successfulTrade, baseTrade])
    (Or.inl (by simp [successfulTrade, baseTrade]))
    (Or.inl (by simp [successfulTrade, baseTrade]))
    (by simp [successfulTrade, baseTrade])
    (Or.inl (by simp [successfulTrade, baseTrade]))
    (by simp [successfulTrade, baseTrade])
  ⟨T.1 (by simp [successfulTrade, baseTrade]),
    T.2.1 (by simp [successfulTrade, baseTrade]),
    T.2.2.1 (by simp [successfulTrade, baseTrade]) (by simp [successfulTrade, baseTrade]),
    T.2.2.2.1 (by simp [successfulTrade, baseTrade]),
    T.2.2.2.2.1 (by simp [successfulTrade, baseTrade]) (by simp [successfulTrade, baseTrade]),
    T.2.2.2.2.2⟩

/-- C3: the balance writes and the trade-status write of
`releaseCrypto` are not transactionally coupled — when the status write
fails after the balance credits (modelled by `releaseCryptoFallible`
with `statusWriteOk = false`), the handler reports an error yet the
buyer keeps the credit (`0.019`), the seller keeps the return
(`0.001`), and the trade is still PAID: money moved, state unchanged. -/
theorem releaseCrypto_money_moved_state_unchanged :
    (releaseCryptoFallible paidState 2 1 false).1 = some .infraFailure ∧
    (releaseCryptoFallible paidState 2 1 false).2.balance 1 = 19 / 1000 ∧
    (releaseCryptoFallible paidState 2 1 false).2.balance 2 = 1 / 1000 ∧
    (findById (releaseCryptoFallible paidState 2 1 false).2 1).map Trade.status
      = some TradeStatus.PAID := by
  refine ⟨?_, ?_, ?_, ?_⟩ <;>
    norm_num [releaseCryptoFallible, findById, paidState, paidTrade, baseTrade, List.find?,
      setBal, zeroBal, round8, jsRound_eq_floor, updateTrade, max_def]

/-- C7: across a successful cancel followed by a successful reopen of
the same trade, the seller is credited exactly `btc_amount_original` by
the cancel and debited exactly the same amount by the reopen, so the
seller's net balance change is zero and the trade is OPENED again. -/
theorem cancel_then_reopen_net_zero (st st₁ st₂ : State) (uid tid : Nat) (t : Trade)
    (r : Option String) (now : ℤ)
    (hfind : findById st tid = some t)
    (hb : Sat8 (st.balance t.seller)) (he : Sat8 t.btc_amount_original)
    (hcan : cancelTrade st uid tid r = (none, st₁))
    (hre : reopenTrade st₁ uid tid now = (none, st₂)) :
    st₁.balance t.seller = st.balance t.seller + t.btc_amount_original ∧
    st₂.balance t.seller = st.balance t.seller ∧
    (findById st₂ tid).map Trade.status = some TradeStatus.OPENED := by
  unfold cancelTrade at hcan
  rw [hfind] at hcan
  dsimp only at hcan
  by_cases h1 : t.buyer ≠ uid ∧ t.seller ≠ uid
  · rw [if_pos h1] at hcan; exact Option.noConfusion (congrArg Prod.fst hcan)
  rw [if_neg h1] at hcan
  by_cases h2 : t.status ≠ TradeStatus.OPENED
  · rw [if_pos h2] at hcan; exact Option.noConfusion (congrArg Prod.fst hcan)
  rw [if_neg h2] at hcan
  injection hcan with hcfst hcsnd
  have hs1 : st₁.balance t.seller = st.balance t.seller + t.btc_amount_original := by
    rw [← hcsnd]
    dsimp only
    rw [setBal_same, round8_eq_self (hb.add he)]
  have hfind1 : findById st₁ tid = some
      { t with
        status := if t.buyer = uid then TradeStatus.CANCELLED_BUYER
          else TradeStatus.CANCELLED_SELLER
        cancelled := r.getD "User cancelled" } := by
    rw [← hcsnd]
    rw [findById_update st tid
      (fun u => { u with
        status := if t.buyer = uid then TradeStatus.CANCELLED_BUYER
          else TradeStatus.CANCELLED_SELLER
        cancelled := r.getD "User cancelled" })
      (setBal st.balance t.seller (round8 (st.balance t.seller + t.btc_amount_original)))
      (fun u => rfl), hfind]
    rfl
  unfold reopenTrade at hre
  rw [hfind1] at hre
  dsimp only at hre
  by_cases g1 : t.buyer ≠ uid ∧ t.seller ≠ uid
  · rw [if_pos g1] at hre; exact Option.noConfusion (congrArg Prod.fst hre)
  rw [if_neg g1] at hre
  by_cases g2 : (if t.buyer = uid then TradeStatus.CANCELLED_BUYER
      else TradeStatus.CANCELLED_SELLER) ≠ TradeStatus.CANCELLED_BUYER ∧
      (if t.buyer = uid then TradeStatus.CANCELLED_BUYER
      else TradeStatus.CANCELLED_SELLER) ≠ TradeStatus.CANCELLED_SELLER
  · rw [if_pos g2] at hre; exact Option.noConfusion (congrArg Prod.fst hre)
  rw [if_neg g2] at hre
  by_cases g3 : st₁.balance t.seller < t.btc_amount_original
  · rw [if_pos g3] at hre; exact Option.noConfusion (congrArg Prod.fst hre)
  rw [if_neg g3] at hre
  injection hre with hrfst hrsnd
  have hs2 : st₂.balance t.seller = st.balance t.seller := by
    rw [← hrsnd]
    dsimp only
    rw [setBal_same, hs1]
    have harith : st.balance t.seller + t.btc_amount_original - t.btc_amount_original
        = st.balance t.seller := by ring
    rw [harith, round8_eq_self hb]
  refine ⟨hs1, hs2, ?_⟩
  rw [← hrsnd]
  rw [findById_update st₁ tid
    (fun u => { u with
      status := TradeStatus.OPENED, cancelled := "NA", expiry_time := now + 24 * 60 * 60 })
    (setBal st₁.balance t.seller
      (round8 (st₁.balance t.seller - t.btc_amount_original)))
    (fun u => rfl), hfind1]
  rfl

/-- Witness for C7 at `openState`: cancel then reopen of trade 1 by
the buyer; the seller's balance returns to its starting value. -/
theorem cancel_then_reopen_net_zero_witness :
    (cancelTrade openState 1 1 none).2.balance baseTrade.seller
      = openState.balance baseTrade.seller + baseTrade.btc_amount_original ∧
    (reopenTrade (cancelTrade openState 1 1 none).2 1 1 0).2.balance baseTrade.seller
      = openState.balance baseTrade.seller ∧
    (findById (reopenTrade (cancelTrade openState 1 1 none).2 1 1 0).2 1).map Trade.status
      = some TradeStatus.OPENED :=
  cancel_then_reopen_net_zero openState (cancelTrade openState 1 1 none).2
    (reopenTrade (cancelTrade openState 1 1 none).2 1 1 0).2 1 1 baseTrade none 0
    (by simp [findById, openState, baseTrade, List.find?])
    ⟨0, by norm_num [openState, zeroBal, baseTrade]⟩
    ⟨2000000, by norm_num [baseTrade]⟩
    (Prod.ext_iff.mpr ⟨by
      norm_num [cancelTrade, findById, openState, baseTrade, List.find?], rfl⟩)
    (Prod.ext_iff.mpr ⟨by
      norm_num [reopenTrade, cancelTrade, findById, openState, baseTrade, List.find?,
        updateTrade, setBal, zeroBal, round8, jsRound_eq_floor], rfl⟩)

/-- C8 is false as stated: the new-trader check counts *all* trades of
the requester (`TradeRepository.getCount` filters only on buyer/seller,
not on status), not the completed ones.  A requester whose single trade
is still OPENED has zero completed trades, below the offer's
`minimum_trades = 1`, yet the create call succeeds. -/
theorem create_history_check_counterexample :
    (createTrade historyState historyInput).1 = none ∧
    historyOffer.new_trader_limit = true ∧
    specCompletedTradeCount historyState historyInput.user.id
      < historyOffer.minimum_trades.getD 0 := by
  refine ⟨?_, rfl, ?_⟩
  · norm_num [createTrade, historyState, historyInput, historyOffer, baseInput, baseUser,
      baseOffer, baseTrade, findByRequestId, List.find?, getCount, healthBlocked, oneBal,
      sellerOf, convertFiatToBtc, round8, jsRound_eq_floor]
    simp
  · simp [specCompletedTradeCount, historyState, historyInput, historyOffer, baseInput,
      baseUser, baseTrade, List.filter,
      show (TradeStatus.OPENED == TradeStatus.SUCCESSFUL) = false from rfl]

/-- C8 (amended): when the offer restricts new traders
(`new_trader_limit`), `createTrade` requires the requester's *total*
trade count — trades in any status where the requester is buyer or
seller, per `TradeRepository.getCount` — to meet `minimum_trades`;
below the threshold (and with every earlier check passing) the call
fails with the insufficient-trade-history error and leaves the state
unchanged. -/
theorem create_history_check_uses_total_count (st : State) (inp : CreateInput) (offer : Offer)
    (hof : inp.offer = some offer)
    (hdup : findByRequestId st inp.request_id = Option.none)
    (hact : ¬(offer.status ≠ OfferStatus.active ∨ ¬offer.active = true))
    (hself : ¬offer.user_id = inp.user.id)
    (hhealth : ¬healthBlocked inp.user.health = true)
    (hdeauth : ¬offer.deauth = true)
    (hver : ¬(offer.id_verification = true ∧ ¬inp.user.is_verified = true))
    (hname : ¬(offer.full_name_required = true ∧ nameMissing inp.user.name = true))
    (hmin : ¬(offer.minimum ≠ 0 ∧ inp.fiat_amount < offer.minimum))
    (hmax : ¬(offer.maximum ≠ 0 ∧ offer.maximum < inp.fiat_amount))
    (hlimit : offer.new_trader_limit = true)
    (hcount : getCount st inp.user.id < offer.minimum_trades.getD 0) :
    createTrade st inp = (some .insufficientTradeHistory, st) := by
  unfold createTrade
  rw [hof]
  dsimp only
  rw [if_neg (by simp [hdup]), if_neg hact, if_neg hself, if_neg hhealth, if_neg hdeauth,
    if_neg hver, if_neg hname, if_neg hmin, if_neg hmax, if_pos ⟨hlimit, hcount⟩]

/-- Witness for the amended C8 theorem: a brand-new user (no trades at
all) against `historyOffer` is rejected with the insufficient-history
error. -/
theorem create_history_check_uses_total_count_witness :
    createTrade emptyState historyInput = (some .insufficientTradeHistory, emptyState) :=
  create_history_check_uses_total_count emptyState historyInput historyOffer
    rfl
    (by simp [findByRequestId, emptyState])
    (by simp [historyOffer, baseOffer])
    (by simp [historyOffer, baseOffer, historyInput, baseInput, baseUser])
    (by simp [historyInput, baseInput, baseUser, healthBlocked])
    (by simp [historyOffer, baseOffer])
    (by simp [historyOffer, baseOffer])
    (by simp [historyOffer, baseOffer])
    (by norm_num [historyOffer, baseOffer])
    (by norm_num [historyOffer, baseOffer])
    (by simp [historyOffer, baseOffer])
    (by simp [getCount, emptyState, historyOffer, baseOffer, historyInput, baseInput, baseUser])

/-- C9: `resolveDispute` succeeds exactly when `dispute_started` is
true (failing with a no-dispute error otherwise, state untouched); on
success it sets the status to AWARDED_BUYER or AWARDED_SELLER per the
award, stamps `dispute_time_resolve`, stores the moderator notes,
resets `dispute_started`, and changes no user balance and no other
field of the trade. -/
theorem resolveDispute_frame (st : State) (tid : Nat) (t : Trade) (awd : Party)
    (notes : Option String) (now : ℤ)
    (hfind : findById st tid = some t) :
    (t.dispute_started = false → resolveDispute st tid awd notes now = (some .noDispute, st)) ∧
    (t.dispute_started = true → ∃ st',
      resolveDispute st tid awd notes now = (none, st') ∧
      st'.balance = st.balance ∧
      findById st' tid = some
        { t with
          status := if awd = Party.buyer then TradeStatus.AWARDED_BUYER
            else TradeStatus.AWARDED_SELLER
          dispute_time_resolve := some now
          dispute_mod_notes := notes
          dispute_started := false }) := by
  constructor
  · intro h
    unfold resolveDispute
    rw [hfind]
    dsimp only
    rw [if_pos (by simp [h])]
  · intro h
    refine ⟨{ st with trades := (updateTrade st.trades tid (fun u => { u with
          status := if awd = Party.buyer then TradeStatus.AWARDED_BUYER
            else TradeStatus.AWARDED_SELLER
          dispute_time_resolve := some now
          dispute_mod_notes := notes
          dispute_started := false })) }, ?_, rfl, ?_⟩
    · unfold resolveDispute
      rw [hfind]
      dsimp only
      rw [if_neg (by simp [h])]
    · rw [findById_update st tid
        (fun u => { u with
          status := if awd = Party.buyer then TradeStatus.AWARDED_BUYER
            else TradeStatus.AWARDED_SELLER
          dispute_time_resolve := some now
          dispute_mod_notes := notes
          dispute_started := false })
        st.balance (fun u => rfl), hfind]
      rfl

/-- Witness for C9 at `disputedState`, awarding the buyer. -/
theorem resolveDispute_frame_witness :
    (disputedTrade.dispute_started = false →
      resolveDispute disputedState 1 Party.buyer (some "ok") 5
        = (some .noDispute, disputedState)) ∧
    (disputedTrade.dispute_started = true → ∃ st',
      resolveDispute disputedState 1 Party.buyer (some "ok") 5 = (none, st') ∧
      st'.balance = disputedState.balance ∧
      findById st' 1 = some
        { disputedTrade with
          status := if Party.buyer = Party.buyer then TradeStatus.AWARDED_BUYER
            else TradeStatus.AWARDED_SELLER
          dispute_time_resolve := some 5
          dispute_mod_notes := some "ok"
          dispute_started := false }) :=
  resolveDispute_frame disputedState 1 disputedTrade Party.buyer (some "ok") 5
    (by simp [findById, disputedState, disputedTrade, baseTrade, List.find?])

end Crypto
